import Mathlib

/-!
Verification development for `src/reana-ui/src/components/WorkflowDeleteModal.js`.

The file shallowly embeds the three non-UI pieces of that component:

* `getWorkspaceGroup` (lines 105–114) — the pure name-based workspace-group
  resolver ("WorkspaceGroupResolver" in the spec);
* `useWorkflowRuns` (lines 50–99) — the stateful related-runs fetcher
  ("RelatedRunsTracker"), embedded as an explicit event-step machine;
* `onDelete` / `deleteButtonLabel` / the delete-button `disabled` expression
  (lines 144–166, 175–219, 262–268) — the deletion orchestrator, embedded as a
  pure function from the component state to the script of delete commands.

JavaScript strings are modelled as `List Char`; a JS value that may be
`null`/`undefined` is modelled with `Option`, and JS truthiness of a string
value (`!s` is true exactly for `null`/`undefined`/`""`) is an explicit
predicate.  Opaque workflow identifiers are modelled as `Option String`
(they are never parsed, only compared and tested for truthiness).
-/

/-- `/^\d+$/.test(part)` (line 109): `part` consists of one or more digits. -/
def isNumericComponent (part : List Char) : Bool :=
  !part.isEmpty && part.all Char.isDigit

/-- `components.join(".")` (line 111). -/
def joinDot (parts : List (List Char)) : List Char :=
  List.intercalate ['.'] parts

/-- JS truthiness of a possibly-absent string: `none` (null/undefined) and
`some []` (the empty string) are falsy, every other string is truthy. -/
def truthyStr : Option (List Char) → Bool
  | none => false
  | some s => !s.isEmpty

/-- Shallow embedding of `getWorkspaceGroup` (lines 105–114).

`if (!fullName) return null` is the `none`/`some []` cases.  The source then
splits on `"."` and runs the backward index loop
`let i = parts.length - 1; while (i >= 0 && /^\d+$/.test(parts[i])) i--;`
so that `numeric = parts.slice(i + 1)` is the maximal all-numeric suffix of
the component list and `parts.slice(0, i + 1)` the remaining prefix; this loop
is embedded as `takeWhile`/`dropWhile` of `isNumericComponent` on the reversed
component list.  `parts.slice(0, i+1).join(".")` is `joinDot`, the guard
`if (!base || numeric.length === 0) return null` is the final `if`, and
`` `${base}.${numeric[0]}` `` is `base ++ '.' :: numeric.headD []`. -/
def getWorkspaceGroup : Option (List Char) → Option (List Char)
  | none => none
  | some s =>
    if s.isEmpty then none
    else
      let parts := List.splitOn '.' s
      let numeric := (parts.reverse.takeWhile isNumericComponent).reverse
      let base := joinDot ((parts.reverse.dropWhile isNumericComponent).reverse)
      if base.isEmpty || numeric.isEmpty then none
      else some (base ++ '.' :: numeric.headD [])

example : getWorkspaceGroup (some "helloworld-demo.1".toList) =
    some "helloworld-demo.1".toList := by decide
example : getWorkspaceGroup (some "helloworld-demo.1.1".toList) =
    some "helloworld-demo.1".toList := by decide
example : getWorkspaceGroup (some "helloworld-demo.1.2".toList) =
    some "helloworld-demo.1".toList := by decide
example : getWorkspaceGroup (some "helloworld-demo".toList) = none := by decide
example : getWorkspaceGroup (some "1.2".toList) = none := by decide
example : getWorkspaceGroup (some []) = none := by decide
example : getWorkspaceGroup none = none := by decide

/-- Truthiness of an opaque workflow identifier (`Boolean(id)`, `if (!id)`):
absent (`none`) and the empty string are falsy. -/
def truthyId : Option String → Bool
  | none => false
  | some s => !s.isEmpty

/-- One element of `resp.data.items`.  `w?.name` is `name`; a `null` item `w`
behaves exactly like `{id: undefined, name: undefined}` in the code (its
`w?.name` is `undefined`, so it never reaches `w.id`), so it is modelled by
`⟨none, none⟩`. -/
structure WItem where
  id : Option String
  name : Option (List Char)
deriving DecidableEq, Repr

/-- The `resp.data` payload of `client.getWorkflows`: `items` may be missing
(`resp.data.items || []`), and `total` is passed through as-is. -/
structure FetchResponse where
  items : Option (List WItem)
  total : Option Int
deriving DecidableEq, Repr

/-- The `useState` record of `useWorkflowRuns` (lines 51–55). -/
structure RelatedRunsState where
  total : Option Int
  relatedIds : List (Option String)
  loading : Bool
deriving DecidableEq, Repr

/-- `{ total: null, relatedIds: [], loading: false }` (lines 52–54, 59, 90). -/
def initialRelatedRunsState : RelatedRunsState :=
  { total := none, relatedIds := [], loading := false }

/-- `` const selectedFullName = run ? `${name}.${run}` : name `` (line 64):
a falsy `run` (null/undefined/empty) leaves the bare `name`. -/
def selectedFullName (name : List Char) (run : Option (List Char)) : List Char :=
  if truthyStr run then name ++ '.' :: run.getD [] else name

/-- The related-id computation exactly as the spec's §4.2 sentence words it:
"identifiers of every returned item whose qualified name resolves to the same
`selectedKey` as the selected run (only when `selectedKey` is defined —
otherwise `relatedIds = []`), preserving the response's item order".  Note
there is no further filtering of the identifiers themselves; this is the
spec-side definition used to compare against the code. -/
def specRelatedIds (selectedGroup : Option (List Char)) (items : List WItem) :
    List (Option String) :=
  match selectedGroup with
  | some g => (items.filter (fun w => getWorkspaceGroup w.name == some g)).map (fun w => w.id)
  | none => []

/-- The state computed by the `.then` success handler (lines 76–85): filter the
items to those in the selected run's workspace group (`selectedGroup` truthy —
a group is always a non-empty string, so truthiness is `isSome`), map to their
ids, and drop falsy ids (`.filter(Boolean)`, line 83). -/
def fetchSuccessState (name : List Char) (run : Option (List Char))
    (resp : FetchResponse) : RelatedRunsState :=
  let selectedGroup := getWorkspaceGroup (some (selectedFullName name run))
  let items := resp.items.getD []
  let relatedIds :=
    match selectedGroup with
    | some g =>
      ((items.filter (fun w => getWorkspaceGroup w.name == some g)).map
        (fun w => w.id)).filter (fun i => truthyId i)
    | none => []
  { total := resp.total, relatedIds := relatedIds, loading := false }

/-- The dependencies of the effect (line 96): the modal's visibility and the
tracked workflow's `name` and `run`.  (`open` is a Lean keyword, hence
`active`, the spec's name for it.) -/
structure TrackerInputs where
  active : Bool
  name : Option (List Char)
  run : Option (List Char)
deriving DecidableEq, Repr

/-- Machine state of the tracker.  `gen` counts effect activations; a fetch
issued by activation `g` is tagged `g`, and the closure-captured `cancelled`
flag of the source (lines 63, 77, 88, 93–95) is true for a response tagged `g`
exactly when a later activation has run the cleanup, i.e. when `g ≠ gen`.
`fetch` holds the `(name, run)` pair of the current activation's in-flight
request, or `none` when the current activation issued no fetch. -/
structure TrackerM where
  gen : Nat
  fetch : Option (List Char × Option (List Char))
  st : RelatedRunsState
deriving DecidableEq, Repr

/-- Outcome of `client.getWorkflows`: the `.then` payload or a `.catch`. -/
inductive FetchOutcome where
  | success : FetchResponse → FetchOutcome
  | failure : FetchOutcome
deriving DecidableEq, Repr

/-- Events driving the tracker: an effect activation (mount or a change of
`[open, name, run]`), or the settling of the fetch tagged with the generation
of the activation that issued it. -/
inductive TrackerEvent where
  | activate : TrackerInputs → TrackerEvent
  | settle : Nat → FetchOutcome → TrackerEvent
deriving DecidableEq, Repr

/-- Tracker state before the first activation. -/
def initialTracker : TrackerM :=
  { gen := 0, fetch := none, st := initialRelatedRunsState }

/-- One step of the tracker machine, embedding the effect body (lines 57–96):

* `activate`: the cleanup of the previous activation sets its `cancelled` flag
  (modelled by the generation bump).  If `!open || !name` the state is reset
  to the initial record and no fetch is issued (lines 58–61); otherwise
  `setState(s => ({...s, loading: true}))` keeps the previous `total` and
  `relatedIds` (line 67) and a fetch for `(name, run)` is issued.
* `settle g o`: the handlers first check the captured `cancelled` flag
  (lines 77, 88) — a response from a superseded activation (`g ≠ gen`) is
  discarded.  A current success installs `fetchSuccessState` (line 85); a
  current failure resets to the initial record (line 90). -/
def stepEvent (m : TrackerM) : TrackerEvent → TrackerM
  | .activate inp =>
    if inp.active && truthyStr inp.name then
      { gen := m.gen + 1,
        fetch := some (inp.name.getD [], inp.run),
        st := { m.st with loading := true } }
    else
      { gen := m.gen + 1, fetch := none, st := initialRelatedRunsState }
  | .settle g o =>
    if g = m.gen then
      match m.fetch with
      | some (name, run) =>
        match o with
        | .success resp => { m with st := fetchSuccessState name run resp }
        | .failure => { m with st := initialRelatedRunsState }
      | none => m
    else m

/-- Run the tracker over a sequence of events. -/
def runTracker (events : List TrackerEvent) : TrackerM :=
  events.foldl stepEvent initialTracker

/-- One `dispatch(deleteWorkflow(target, options))` call.  The `allRuns: true`
branch passes no `deleteWorkspace` key (line 179), hence the `Option Bool`. -/
structure DeleteCmd where
  target : Option String
  allRuns : Bool
  deleteWorkspace : Option Bool
deriving DecidableEq, Repr

/-- Shallow embedding of `onDelete` (lines 175–219) as the script of commands
it issues.  The result is a list of sequential batches (a batch is only
dispatched after every command of the previous batch has resolved — the
`await`/`await Promise.all` structure of the source) together with whether
`onCloseModal` runs at the end (only after all batches have resolved):

* falsy `id` → no commands, no close (line 176);
* `allRuns` → the single command `deleteWorkflow(id, {allRuns: true})`,
  then close (lines 178–182);
* `hasRelatedRuns` without `confirmRelatedDeletion` → no commands, no close
  (line 185);
* `hasRelatedRuns` with confirmation → first `deleteWorkflow(id,
  {allRuns: false, deleteWorkspace: true})`, then one
  `deleteWorkflow(otherId, {allRuns: false, deleteWorkspace: false})` per
  `otherId !== id` of `relatedRunIds` (issued concurrently, lines 186–203),
  then close;
* otherwise the single `deleteWorkflow(id, {allRuns: false,
  deleteWorkspace: true})`, then close (lines 207–210). -/
def onDelete (id : Option String) (allRuns hasRelatedRuns confirmRelatedDeletion : Bool)
    (relatedRunIds : List (Option String)) : List (List DeleteCmd) × Bool :=
  if !truthyId id then ([], false)
  else if allRuns then ([[{ target := id, allRuns := true, deleteWorkspace := none }]], true)
  else if hasRelatedRuns then
    if !confirmRelatedDeletion then ([], false)
    else
      ([[{ target := id, allRuns := false, deleteWorkspace := some true }],
        (relatedRunIds.filter (fun otherId => !(otherId == id))).map
          (fun otherId => { target := otherId, allRuns := false, deleteWorkspace := some false })],
       true)
  else ([[{ target := id, allRuns := false, deleteWorkspace := some true }]], true)

/-- The delete button's `disabled` expression
`hasRelatedRuns && !allRuns && !confirmRelatedDeletion` (line 264). -/
def deleteButtonDisabled (hasRelatedRuns allRuns confirmRelatedDeletion : Bool) : Bool :=
  hasRelatedRuns && !allRuns && !confirmRelatedDeletion

/-- `` const baseRun = String(run ?? "").split(".")[0] `` (line 145): the first
dot-separated component of `run` (empty when `run` is absent or empty).  The
split is computed on the character-list model of the string. -/
def baseRunOf (run : Option String) : String :=
  String.mk ((List.splitOn '.' (run.getD "").toList).headD [])

/-- `` const runLabel = baseRun ? `${name}#${baseRun}` : name `` (line 146). -/
def runLabelOf (name : String) (run : Option String) : String :=
  if baseRunOf run = "" then name else name ++ "#" ++ baseRunOf run

/-- Shallow embedding of `deleteButtonLabel` (lines 147–166).  JS nuances kept:
`allRunsTotal ?? "all"` is nullish coalescing (a total of `0` prints `0`),
while `relatedCount || "all"` is falsy coalescing (a count of `0` prints
`all`); the run is shown in case 4 only when `run !== undefined && run !==
null && String(run) !== ""`. -/
def deleteButtonLabel (name : Option String) (run : Option String) (allRuns : Bool)
    (allRunsTotal : Option Int) (hasRelatedRuns confirmRelatedDeletion : Bool)
    (relatedCount : Nat) : String :=
  match name with
  | none => "Delete"
  | some nm =>
    if nm = "" then "Delete"
    else if allRuns then
      "Delete " ++ (match allRunsTotal with | none => "all" | some t => toString t)
        ++ " runs of \"" ++ nm ++ "\""
    else if hasRelatedRuns && confirmRelatedDeletion then
      "Delete " ++ (if relatedCount = 0 then "all" else toString relatedCount)
        ++ " runs in restart chain of \"" ++ runLabelOf nm run ++ "\""
    else
      match run with
      | some r => if r = "" then "Delete workflow \"" ++ nm ++ "\""
                  else "Delete workflow \"" ++ nm ++ "#" ++ r ++ "\""
      | none => "Delete workflow \"" ++ nm ++ "\""

example : deleteButtonLabel (some "x") (some "7.1") false (some 3) true true 3 =
    "Delete 3 runs in restart chain of \"x#7\"" := by decide
example : deleteButtonLabel (some "x") (some "7.1") true (some 3) true true 3 =
    "Delete 3 runs of \"x\"" := by decide
example : deleteButtonLabel (some "x") (some "7.1") false (some 3) false false 0 =
    "Delete workflow \"x#7.1\"" := by decide
example : deleteButtonLabel none (some "7.1") false none false false 0 = "Delete" := by decide

/-! ### Helper lemmas about `splitOn`, `intercalate`, `takeWhile`, `dropWhile` -/

theorem forall_not_of_mem_splitOnP {α : Type} {p : α → Bool} :
    ∀ (xs : List α), ∀ l ∈ xs.splitOnP p, ∀ a ∈ l, p a = false := by
  intro xs
  induction xs with
  | nil =>
    intro l hl a ha
    rw [List.splitOnP_nil] at hl
    simp only [List.mem_singleton] at hl
    subst hl
    simp at ha
  | cons x xs ih =>
    intro l hl a ha
    rw [List.splitOnP_cons] at hl
    by_cases hx : p x = true
    · rw [if_pos hx] at hl
      rcases List.mem_cons.mp hl with h | h
      · subst h; simp at ha
      · exact ih l h a ha
    · rw [if_neg hx] at hl
      rcases hsp : xs.splitOnP p with _ | ⟨hd, tl⟩
      · exact absurd hsp (List.splitOnP_ne_nil p xs)
      · rw [hsp] at hl
        simp only [List.modifyHead] at hl
        rcases List.mem_cons.mp hl with h | h
        · subst h
          rcases List.mem_cons.mp ha with h | h
          · subst h; exact Bool.eq_false_iff.mpr hx
          · exact ih hd (by rw [hsp]; exact List.mem_cons_self hd tl) a h
        · exact ih l (by rw [hsp]; exact List.mem_cons_of_mem hd h) a ha

theorem not_mem_of_mem_splitOn {α : Type} [DecidableEq α] {c : α} {xs : List α} :
    ∀ l ∈ xs.splitOn c, c ∉ l := by
  intro l hl hc
  have := forall_not_of_mem_splitOnP (p := (· == c)) xs l hl c hc
  simp at this

theorem intercalate_append_parts {α : Type} (sep : List α) :
    ∀ (X Y : List (List α)), X ≠ [] → Y ≠ [] →
      List.intercalate sep (X ++ Y) =
        List.intercalate sep X ++ sep ++ List.intercalate sep Y := by
  intro X
  induction X with
  | nil => intro Y h _; exact absurd rfl h
  | cons a t ih =>
    intro Y _ hY
    cases t with
    | nil =>
      cases Y with
      | nil => exact absurd rfl hY
      | cons y ty =>
        simp [List.intercalate, List.intersperse, List.append_assoc]
    | cons b t2 =>
      have h2 := ih Y (List.cons_ne_nil b t2) hY
      have hcc : ∀ (u v : List α) (w : List (List α)),
          List.intercalate sep (u :: v :: w) = u ++ sep ++ List.intercalate sep (v :: w) := by
        intro u v w
        simp [List.intercalate, List.intersperse_cons_cons, List.append_assoc]
      calc List.intercalate sep ((a :: b :: t2) ++ Y)
          = a ++ sep ++ List.intercalate sep ((b :: t2) ++ Y) := by
            cases Y with
            | nil => exact absurd rfl hY
            | cons y ty => simp only [List.cons_append]; exact hcc a b (t2 ++ y :: ty)
        _ = a ++ sep ++ (List.intercalate sep (b :: t2) ++ sep ++ List.intercalate sep Y) := by
            rw [h2]
        _ = List.intercalate sep (a :: b :: t2) ++ sep ++ List.intercalate sep Y := by
            rw [hcc a b t2]; simp [List.append_assoc]

theorem intercalate_one {α : Type} (sep : List α) (x : List α) :
    List.intercalate sep [x] = x := by
  simp [List.intercalate, List.intersperse]

theorem takeWhile_append_of_all {α : Type} {p : α → Bool} :
    ∀ (A B : List α), (∀ x ∈ A, p x = true) → (A ++ B).takeWhile p = A ++ B.takeWhile p := by
  intro A
  induction A with
  | nil => intro B _; rfl
  | cons a t ih =>
    intro B h
    have ha := h a (List.mem_cons_self a t)
    simp only [List.cons_append, List.takeWhile_cons, ha, if_true]
    rw [ih B (fun x hx => h x (List.mem_cons_of_mem a hx))]

theorem dropWhile_append_of_all {α : Type} {p : α → Bool} :
    ∀ (A B : List α), (∀ x ∈ A, p x = true) → (A ++ B).dropWhile p = B.dropWhile p := by
  intro A
  induction A with
  | nil => intro B _; rfl
  | cons a t ih =>
    intro B h
    have ha := h a (List.mem_cons_self a t)
    simp only [List.cons_append, List.dropWhile_cons, ha, if_true]
    exact ih B (fun x hx => h x (List.mem_cons_of_mem a hx))

theorem takeWhile_dropWhile_nil {α : Type} (p : α → Bool) :
    ∀ (l : List α), (l.dropWhile p).takeWhile p = [] := by
  intro l
  induction l with
  | nil => rfl
  | cons a t ih =>
    by_cases ha : p a = true
    · simpa [List.dropWhile_cons, ha] using ih
    · simp [List.dropWhile_cons, ha, List.takeWhile_cons]

theorem head_dropWhile_false {α : Type} (p : α → Bool) :
    ∀ (l : List α) (d : α) (t : List α), l.dropWhile p = d :: t → p d = false := by
  intro l
  induction l with
  | nil => intro d t h; simp at h
  | cons a tl ih =>
    intro d t h
    by_cases ha : p a = true
    · rw [List.dropWhile_cons, if_pos ha] at h
      exact ih d t h
    · rw [List.dropWhile_cons, if_neg ha] at h
      cases h
      exact Bool.eq_false_iff.mpr ha

/-! ### Structural characterisation of `getWorkspaceGroup` -/

/-- If the input's dot-components are a prefix ending in a non-numeric
component `b` followed by a non-empty run of numeric components `n :: ns`,
then the resolver strips exactly `n :: ns` and returns the prefix joined with
`"."`, a dot, and the first stripped numeric component `n` (or `none` when the
joined prefix is empty). -/
theorem getWorkspaceGroup_decomp (bs : List (List Char)) (b n : List Char)
    (ns : List (List Char))
    (hdots : ∀ l ∈ (bs ++ [b]) ++ n :: ns, ('.' : Char) ∉ l)
    (hb : isNumericComponent b = false)
    (hns : ∀ l ∈ n :: ns, isNumericComponent l = true) :
    getWorkspaceGroup (some (joinDot ((bs ++ [b]) ++ n :: ns))) =
      if (joinDot (bs ++ [b])).isEmpty then none
      else some (joinDot (bs ++ [b]) ++ '.' :: n) := by
  have hXne : bs ++ [b] ≠ [] := by simp
  have hJ : joinDot ((bs ++ [b]) ++ n :: ns) =
      joinDot (bs ++ [b]) ++ ['.'] ++ joinDot (n :: ns) := by
    simp only [joinDot]
    exact intercalate_append_parts _ _ _ hXne (List.cons_ne_nil n ns)
  have hsE : (joinDot ((bs ++ [b]) ++ n :: ns)).isEmpty = false := by
    rw [hJ]; simp
  have hparts : List.splitOn '.' (joinDot ((bs ++ [b]) ++ n :: ns)) = (bs ++ [b]) ++ n :: ns := by
    simp only [joinDot]
    exact List.splitOn_intercalate _ '.' hdots (by simp)
  have hrev : (((bs ++ [b]) ++ n :: ns).reverse) = (n :: ns).reverse ++ (b :: bs.reverse) := by
    simp
  have haY : ∀ x ∈ (n :: ns).reverse, isNumericComponent x = true :=
    fun x hx => hns x (List.mem_reverse.mp hx)
  have hT : ((n :: ns).reverse ++ (b :: bs.reverse)).takeWhile isNumericComponent =
      (n :: ns).reverse := by
    rw [takeWhile_append_of_all _ _ haY]
    simp [List.takeWhile_cons, hb]
  have hD : ((n :: ns).reverse ++ (b :: bs.reverse)).dropWhile isNumericComponent =
      b :: bs.reverse := by
    rw [dropWhile_append_of_all _ _ haY]
    simp [List.dropWhile_cons, hb]
  simp only [getWorkspaceGroup, hsE, Bool.false_eq_true, if_false, hparts, hrev, hT, hD]
  simp [List.reverse_cons, List.reverse_reverse, List.headD_cons]

/-- If the last dot-component of the input is not numeric, the resolver finds
no numeric suffix and returns `none`. -/
theorem getWorkspaceGroup_no_numeric (bs : List (List Char)) (b : List Char)
    (hdots : ∀ l ∈ bs ++ [b], ('.' : Char) ∉ l)
    (hb : isNumericComponent b = false) :
    getWorkspaceGroup (some (joinDot (bs ++ [b]))) = none := by
  cases hsE : (joinDot (bs ++ [b])).isEmpty with
  | true => simp [getWorkspaceGroup, hsE]
  | false =>
    have hparts : List.splitOn '.' (joinDot (bs ++ [b])) = bs ++ [b] := by
      simp only [joinDot]
      exact List.splitOn_intercalate _ '.' hdots (by simp)
    have hrev : (bs ++ [b]).reverse = b :: bs.reverse := by simp
    have hT : (b :: bs.reverse).takeWhile isNumericComponent = [] := by
      simp [List.takeWhile_cons, hb]
    simp only [getWorkspaceGroup, hsE, Bool.false_eq_true, if_false, hparts, hrev, hT]
    simp

/-- If every dot-component of the input is numeric, the remaining prefix is
empty and the resolver returns `none`. -/
theorem getWorkspaceGroup_all_numeric (n : List Char) (ns : List (List Char))
    (hdots : ∀ l ∈ n :: ns, ('.' : Char) ∉ l)
    (hns : ∀ l ∈ n :: ns, isNumericComponent l = true) :
    getWorkspaceGroup (some (joinDot (n :: ns))) = none := by
  cases hsE : (joinDot (n :: ns)).isEmpty with
  | true => simp [getWorkspaceGroup, hsE]
  | false =>
    have hparts : List.splitOn '.' (joinDot (n :: ns)) = n :: ns := by
      simp only [joinDot]
      exact List.splitOn_intercalate _ '.' hdots (List.cons_ne_nil n ns)
    have hD : (n :: ns).reverse.dropWhile isNumericComponent = [] := by
      rw [List.dropWhile_eq_nil_iff]
      intro x hx
      exact hns x (List.mem_reverse.mp hx)
    have hbase : joinDot (([] : List (List Char)).reverse) = [] := by
      simp [joinDot, List.intercalate]
    simp only [getWorkspaceGroup, hsE, Bool.false_eq_true, if_false, hparts, hD, hbase]
    simp

/-! ### Claim theorems -/

/-- **C3.** `getWorkspaceGroup` splits its input on `'.'`, strips the maximal
run of trailing purely-numeric components, and returns the remaining prefix
joined with `'.'`, a dot, and the leftmost stripped numeric component; the
result is `none` when the input is null/empty, when no trailing numeric
component exists (last component non-numeric), or when the base is empty (all
components numeric) — in particular `resolve("helloworld-demo.1.1") =
"helloworld-demo.1"`, `resolve("helloworld-demo")` and `resolve("1.2")` are
undefined. -/
theorem C3_resolver_strips_trailing_numerics :
    getWorkspaceGroup none = none ∧
    getWorkspaceGroup (some []) = none ∧
    getWorkspaceGroup (some "helloworld-demo.1.1".toList) =
      some "helloworld-demo.1".toList ∧
    getWorkspaceGroup (some "helloworld-demo".toList) = none ∧
    getWorkspaceGroup (some "1.2".toList) = none ∧
    (∀ (bs : List (List Char)) (b n : List Char) (ns : List (List Char)),
      (∀ l ∈ (bs ++ [b]) ++ n :: ns, ('.' : Char) ∉ l) →
      isNumericComponent b = false →
      (∀ l ∈ n :: ns, isNumericComponent l = true) →
      (joinDot (bs ++ [b])).isEmpty = false →
      getWorkspaceGroup (some (joinDot ((bs ++ [b]) ++ n :: ns))) =
        some (joinDot (bs ++ [b]) ++ '.' :: n)) ∧
    (∀ (bs : List (List Char)) (b : List Char),
      (∀ l ∈ bs ++ [b], ('.' : Char) ∉ l) →
      isNumericComponent b = false →
      getWorkspaceGroup (some (joinDot (bs ++ [b]))) = none) ∧
    (∀ (n : List Char) (ns : List (List Char)),
      (∀ l ∈ n :: ns, ('.' : Char) ∉ l) →
      (∀ l ∈ n :: ns, isNumericComponent l = true) →
      getWorkspaceGroup (some (joinDot (n :: ns))) = none) := by
  refine ⟨by decide, by decide, by decide, by decide, by decide, ?_,
    getWorkspaceGroup_no_numeric, getWorkspaceGroup_all_numeric⟩
  intro bs b n ns hdots hb hns hbase
  rw [getWorkspaceGroup_decomp bs b n ns hdots hb hns, hbase]
  simp

/-- Witness for C3: the general clauses applied to `"w.1.2"`, `"w"` and
`"1.2"` decomposed into their dot-components. -/
theorem C3_resolver_strips_trailing_numerics_witness :
    getWorkspaceGroup (some (joinDot (([] ++ [['w']]) ++ ['1'] :: [['2']]))) =
      some (joinDot ([] ++ [['w']]) ++ '.' :: ['1']) ∧
    getWorkspaceGroup (some (joinDot ([] ++ [['w']]))) = none ∧
    getWorkspaceGroup (some (joinDot (['1'] :: [['2']]))) = none :=
  ⟨C3_resolver_strips_trailing_numerics.2.2.2.2.2.1 [] ['w'] ['1'] [['2']]
      (by decide) (by decide) (by decide) (by decide),
   C3_resolver_strips_trailing_numerics.2.2.2.2.2.2.1 [] ['w'] (by decide) (by decide),
   C3_resolver_strips_trailing_numerics.2.2.2.2.2.2.2 ['1'] [['2']] (by decide) (by decide)⟩

/-- **C9.** The resolver is idempotent on its defined outputs: whenever
`getWorkspaceGroup` returns a workspace-group key, resolving that key again
yields the same key. -/
theorem C9_resolver_idempotent (nm : Option (List Char)) (r : List Char)
    (h : getWorkspaceGroup nm = some r) :
    getWorkspaceGroup (some r) = some r := by
  cases nm with
  | none => simp [getWorkspaceGroup] at h
  | some s =>
    cases hse : s.isEmpty with
    | true => simp [getWorkspaceGroup, hse] at h
    | false =>
      simp only [getWorkspaceGroup, hse, Bool.false_eq_true, if_false] at h
      set parts := List.splitOn '.' s with hpartsdef
      set T := parts.reverse.takeWhile isNumericComponent with hTdef
      set D := parts.reverse.dropWhile isNumericComponent with hDdef
      cases hcond : ((joinDot D.reverse).isEmpty || T.reverse.isEmpty) with
      | true => rw [hcond] at h; simp at h
      | false =>
        rw [hcond] at h
        simp only [Bool.false_eq_true, if_false, Option.some.injEq] at h
        have hbaseF : (joinDot D.reverse).isEmpty = false := by
          cases hx : (joinDot D.reverse).isEmpty
          · rfl
          · rw [hx] at hcond; simp at hcond
        have hnumF : T.reverse.isEmpty = false := by
          cases hx : T.reverse.isEmpty
          · rfl
          · rw [hx] at hcond; simp at hcond
        rcases hnum : T.reverse with _ | ⟨n₀, nt⟩
        · rw [hnum] at hnumF; simp at hnumF
        have hbne : D.reverse ≠ [] := by
          intro h0
          rw [h0] at hbaseF
          simp [joinDot, List.intercalate] at hbaseF
        rcases List.eq_nil_or_concat' D.reverse with h0 | ⟨bs, b, hbs⟩
        · exact absurd h0 hbne
        have hDcons : D = b :: bs.reverse := by
          have h1 := congrArg List.reverse hbs
          rw [List.reverse_reverse] at h1
          rw [h1]; simp
        have hDrop : parts.reverse.dropWhile isNumericComponent = b :: bs.reverse := by
          rw [← hDdef]; exact hDcons
        have hb : isNumericComponent b = false :=
          head_dropWhile_false isNumericComponent parts.reverse b bs.reverse hDrop
        have hn₀mem : n₀ ∈ T := by
          have hmem : n₀ ∈ T.reverse := by rw [hnum]; exact List.mem_cons_self n₀ nt
          exact List.mem_reverse.mp hmem
        have hn : isNumericComponent n₀ = true := List.mem_takeWhile_imp (by rw [← hTdef]; exact hn₀mem)
        have hdotsparts : ∀ l ∈ parts, ('.' : Char) ∉ l := by
          intro l hl
          exact not_mem_of_mem_splitOn l (by rw [hpartsdef] at hl; exact hl)
        have hsubD : List.Sublist D parts.reverse := by
          rw [hDdef]; exact List.dropWhile_sublist _
        have hsubT : List.Sublist T parts.reverse := by
          rw [hTdef]; exact List.takeWhile_sublist _
        have hdots : ∀ l ∈ (bs ++ [b]) ++ n₀ :: ([] : List (List Char)), ('.' : Char) ∉ l := by
          intro l hl
          rcases List.mem_append.mp hl with hl | hl
          · have h1 : l ∈ D.reverse := by rw [hbs]; exact hl
            have h2 : l ∈ D := List.mem_reverse.mp h1
            exact hdotsparts l (List.mem_reverse.mp (hsubD.subset h2))
          · have h1 : l = n₀ := by simpa using hl
            subst h1
            exact hdotsparts l (List.mem_reverse.mp (hsubT.subset hn₀mem))
        have hns : ∀ l ∈ n₀ :: ([] : List (List Char)), isNumericComponent l = true := by
          intro l hl
          have h1 : l = n₀ := by simpa using hl
          subst h1
          exact hn
        have hbase2 : (joinDot (bs ++ [b])).isEmpty = false := by rw [← hbs]; exact hbaseF
        have hexp : joinDot ((bs ++ [b]) ++ n₀ :: []) = joinDot (bs ++ [b]) ++ '.' :: n₀ := by
          simp only [joinDot]
          rw [intercalate_append_parts _ _ _ (by simp) (by simp), intercalate_one]
          simp
        have hjr : joinDot ((bs ++ [b]) ++ n₀ :: []) = r := by
          rw [hexp, ← h, hbs, hnum]
          simp
        calc getWorkspaceGroup (some r)
            = getWorkspaceGroup (some (joinDot ((bs ++ [b]) ++ n₀ :: []))) := by rw [hjr]
          _ = some (joinDot (bs ++ [b]) ++ '.' :: n₀) := by
              rw [getWorkspaceGroup_decomp bs b n₀ [] hdots hb hns, hbase2]
              simp
          _ = some r := by rw [← hexp, hjr]

/-- Witness for C9: resolving `"helloworld-demo.1.1"` yields
`"helloworld-demo.1"`, and resolving that key again is a fixed point. -/
theorem C9_resolver_idempotent_witness :
    getWorkspaceGroup (some "helloworld-demo.1".toList) =
      some "helloworld-demo.1".toList :=
  C9_resolver_idempotent (some "helloworld-demo.1.1".toList)
    "helloworld-demo.1".toList (by decide)

/-- A response whose only item belongs to the selected workspace group but
carries no identifier. -/
def respNullId : FetchResponse :=
  { items := some [{ id := none, name := some "w.1".toList }], total := some 1 }

/-- The spec §8 example response:
`[{id:1,name:"w.1"},{id:2,name:"w.1.1"},{id:3,name:"w.2"}]`. -/
def respExample : FetchResponse :=
  { items := some [{ id := some "1", name := some "w.1".toList },
                   { id := some "2", name := some "w.1.1".toList },
                   { id := some "3", name := some "w.2".toList }],
    total := some 3 }

/-- **C4 counterexample.** The claim says `relatedIds` equals the identifiers
of *every* returned item whose qualified name resolves to the selected key.
For the selected run `"w"`/`"1"` and a response whose single item has name
`"w.1"` (same group) but a null id, that list is `[null]`, yet the code's
`.filter(Boolean)` drops the null id and produces `[]`. -/
theorem C4_relatedIds_counterexample :
    (fetchSuccessState "w".toList (some "1".toList) respNullId).relatedIds = [] ∧
    specRelatedIds (getWorkspaceGroup (some (selectedFullName "w".toList (some "1".toList))))
      (respNullId.items.getD []) = [none] := by decide

/-- **C4 (amended).** For every successful response the resulting state has
`total` equal to the response's total, `loading = false`, and `relatedIds`
equal to the identifiers of the matching items (in response order, `[]` when
the selected key is undefined) *further restricted to truthy identifiers*; in
particular the spec's example yields `[1, 2]` and excludes `3`. -/
theorem C4_fetch_success_state :
    (∀ (name : List Char) (run : Option (List Char)) (resp : FetchResponse),
      fetchSuccessState name run resp =
        { total := resp.total,
          relatedIds :=
            (specRelatedIds (getWorkspaceGroup (some (selectedFullName name run)))
              (resp.items.getD [])).filter (fun i => truthyId i),
          loading := false }) ∧
    (fetchSuccessState "w".toList (some "1".toList) respExample).relatedIds =
      [some "1", some "2"] := by
  constructor
  · intro name run resp
    simp only [fetchSuccessState, specRelatedIds]
    cases getWorkspaceGroup (some (selectedFullName name run)) <;> simp
  · decide

/-- **C10.** Every element of a successfully computed `relatedIds` is a truthy
identifier — an item with an absent/empty id is omitted even when its name
resolves to the selected group key (second conjunct: the group-matching
null-id item of `respNullId` is dropped). -/
theorem C10_relatedIds_truthy :
    (∀ (name : List Char) (run : Option (List Char)) (resp : FetchResponse)
      (x : Option String), x ∈ (fetchSuccessState name run resp).relatedIds →
      truthyId x = true) ∧
    (fetchSuccessState "w".toList (some "1".toList) respNullId).relatedIds = [] := by
  constructor
  · intro name run resp x hx
    simp only [fetchSuccessState] at hx
    cases hg : getWorkspaceGroup (some (selectedFullName name run)) with
    | none => rw [hg] at hx; simp at hx
    | some g =>
      rw [hg] at hx
      simp only at hx
      exact (List.mem_filter.mp hx).2
  · decide

/-- Witness for C10 at the spec's example response. -/
theorem C10_relatedIds_truthy_witness : truthyId (some "1") = true :=
  C10_relatedIds_truthy.1 "w".toList (some "1".toList) respExample (some "1") (by decide)

/-- **C5.** A fetch response tagged with a generation other than the current
one — i.e. one whose triggering inputs have changed since, so that its
closure's `cancelled` flag is set — is discarded: the settle step leaves the
entire machine state unchanged, and only the most recent activation's
response can mutate the state. -/
theorem C5_stale_fetch_discarded (m : TrackerM) (g : Nat) (o : FetchOutcome)
    (h : g ≠ m.gen) : stepEvent m (.settle g o) = m := by
  simp [stepEvent, h]

/-- Witness for C5 (the spec's Scenario D): activation 1 fetches for `A`, the
tracked workflow then changes to `B`; when `A`'s fetch resolves it is
discarded. -/
theorem C5_stale_fetch_discarded_witness :
    stepEvent (runTracker [.activate ⟨true, some "A".toList, none⟩,
                           .activate ⟨true, some "B".toList, none⟩])
      (.settle 1 (.success respExample)) =
      runTracker [.activate ⟨true, some "A".toList, none⟩,
                  .activate ⟨true, some "B".toList, none⟩] :=
  C5_stale_fetch_discarded _ 1 (.success respExample) (by decide)

/-- Trace used for the C6 counterexample: a successful fetch for `"w"` run
`"1"`, then a change of the tracked identity to `"v"` while the modal stays
open. -/
def eventsC6 : List TrackerEvent :=
  [.activate ⟨true, some "w".toList, some "1".toList⟩,
   .settle 1 (.success respExample),
   .activate ⟨true, some "v".toList, some "1".toList⟩]

/-- **C6 counterexample.** The claim says a change of the tracked workflow
identity resets the state to `{total: null, relatedIds: [], loading: false}`
so that no previously computed values remain exposed.  In the code an active
identity change only runs `setState(s => ({...s, loading: true}))`: after
switching from `"w"` to `"v"` the previous workflow's `relatedIds` (and
`total`) are still exposed. -/
theorem C6_reset_on_change_counterexample :
    (runTracker eventsC6).st ≠ initialRelatedRunsState ∧
    (runTracker eventsC6).st.relatedIds = [some "1", some "2"] ∧
    (runTracker eventsC6).st.loading = true := by decide

/-- **C6 (amended).** On an activation: when visibility is false or the name
is absent the state is reset immediately to the initial record and no fetch
is issued; on an active change of identity only `loading` is set `true` — the
previous `total` and `relatedIds` persist until the new fetch settles. -/
theorem C6_activation_behaviour (m : TrackerM) (inp : TrackerInputs) :
    stepEvent m (.activate inp) =
      if inp.active && truthyStr inp.name then
        { gen := m.gen + 1, fetch := some (inp.name.getD [], inp.run),
          st := { m.st with loading := true } }
      else
        { gen := m.gen + 1, fetch := none, st := initialRelatedRunsState } := rfl

/-- **C8.** When the current activation's fetch fails, the tracker resets its
state to the initial record `{total: null, relatedIds: [], loading: false}`:
the failure is non-fatal and degrades to "no related-run knowledge".  (The
`console.log` of the error is an I/O side effect outside the state model.) -/
theorem C8_failure_resets (m : TrackerM) (h : m.fetch.isSome = true) :
    stepEvent m (.settle m.gen .failure) = { m with st := initialRelatedRunsState } := by
  rcases hf : m.fetch with _ | ⟨name, run⟩
  · rw [hf] at h; simp at h
  · simp [stepEvent, hf]

/-- Witness for C8: the fetch of a single active activation fails. -/
theorem C8_failure_resets_witness :
    stepEvent (runTracker [.activate ⟨true, some "w".toList, some "1".toList⟩])
      (.settle (runTracker [.activate ⟨true, some "w".toList, some "1".toList⟩]).gen .failure) =
      { runTracker [.activate ⟨true, some "w".toList, some "1".toList⟩] with
        st := initialRelatedRunsState } :=
  C8_failure_resets _ (by decide)

/-- **C1.** `onDelete` issues exactly the command script determined by the
state: with a truthy target id, `allRuns` gives the single command
`deleteWorkflow(id, {allRuns: true})` and closes; else with related runs and
confirmation the primary `deleteWorkflow(id, {allRuns: false,
deleteWorkspace: true})` forms the first batch and one
`deleteWorkflow(otherId, {allRuns: false, deleteWorkspace: false})` per
related id other than `id` forms the second (issued only after the primary
resolves, closing only after all settle); else with related runs but no
confirmation it is a no-op; else the single `deleteWorkflow(id,
{allRuns: false, deleteWorkspace: true})` and close; with a falsy id it is a
no-op issuing no command. -/
theorem C1_onDelete_script (id : Option String) (a h c : Bool)
    (ids : List (Option String)) :
    (truthyId id = false → onDelete id a h c ids = ([], false)) ∧
    (truthyId id = true → a = true →
      onDelete id a h c ids =
        ([[{ target := id, allRuns := true, deleteWorkspace := none }]], true)) ∧
    (truthyId id = true → a = false → h = true → c = true →
      onDelete id a h c ids =
        ([[{ target := id, allRuns := false, deleteWorkspace := some true }],
          (ids.filter (fun o => !(o == id))).map
            (fun o => { target := o, allRuns := false, deleteWorkspace := some false })],
         true)) ∧
    (truthyId id = true → a = false → h = true → c = false →
      onDelete id a h c ids = ([], false)) ∧
    (truthyId id = true → a = false → h = false →
      onDelete id a h c ids =
        ([[{ target := id, allRuns := false, deleteWorkspace := some true }]], true)) :=
  ⟨fun ht => by simp [onDelete, ht],
   fun ht ha => by simp [onDelete, ht, ha],
   fun ht ha hh hc => by simp [onDelete, ht, ha, hh, hc],
   fun ht ha hh hc => by simp [onDelete, ht, ha, hh, hc],
   fun ht ha hh => by simp [onDelete, ht, ha, hh]⟩

/-- Witness for C1 (the spec's Scenario B): target id 5 in the restart chain
`[5, 6, 7]`, confirmed: workspace-owning delete of 5 first, then the sibling
marks of 6 and 7, then close. -/
theorem C1_onDelete_script_witness :
    onDelete (some "5") false true true [some "5", some "6", some "7"] =
      ([[{ target := some "5", allRuns := false, deleteWorkspace := some true }],
        [{ target := some "6", allRuns := false, deleteWorkspace := some false },
         { target := some "7", allRuns := false, deleteWorkspace := some false }]],
       true) := by
  have h := (C1_onDelete_script (some "5") false true true
    [some "5", some "6", some "7"]).2.2.1 (by decide) rfl rfl rfl
  rw [h]
  decide

/-- **C2.** The delete action is enabled iff
`!hasRelatedRuns OR allRuns OR confirmRelatedDeletion`, and in the disabled
configuration (`hasRelatedRuns && !allRuns && !confirmRelatedDeletion`) the
delete handler is structurally a no-op for every id and related-id list: it
issues no command and does not close, so nothing changes and no error is
raised. -/
theorem C2_delete_gating :
    (∀ (h a c : Bool),
      deleteButtonDisabled h a c = false ↔ (h = false ∨ a = true ∨ c = true)) ∧
    (∀ (id : Option String) (ids : List (Option String)),
      onDelete id false true false ids = ([], false)) := by
  constructor
  · decide
  · intro id ids
    cases ht : truthyId id <;> simp [onDelete, ht]

/-- **C7 counterexample.** The claim's case-3 label is unconditionally
`"... of \"{name}#{baseRun}\""` with `baseRun` the first dot-component of
`run`.  With name `"w"`, no designated run, related runs confirmed: `baseRun`
is empty and the code's `runLabel` falls back to the bare name, producing
`...\"w\"`, not the claimed `...\"w#\"`. -/
theorem C7_label_counterexample :
    deleteButtonLabel (some "w") none false none true true 2 =
      "Delete 2 runs in restart chain of \"w\"" ∧
    deleteButtonLabel (some "w") none false none true true 2 ≠
      "Delete 2 runs in restart chain of \"w#\"" := by decide

/-- **C7 (amended).** The label has exactly these cases in order: falsy name
→ `"Delete"`; `allRuns` → `"Delete {total or 'all'} runs of \"{name}\""`;
related+confirmed (not allRuns) → `"Delete {relatedCount or 'all'} runs in
restart chain of \"{runLabel}\""` where `runLabel` is `name#baseRun` when
`baseRun` (the first dot-component of `run`, e.g. `"7.1"` → `"7"`) is
non-empty and the bare `name` otherwise; a designated non-empty run →
`"Delete workflow \"{name}#{run}\""`; otherwise
`"Delete workflow \"{name}\""`. -/
theorem C7_delete_button_label (name run : Option String) (a h c : Bool)
    (total : Option Int) (k : Nat) :
    (name = none ∨ name = some "" →
      deleteButtonLabel name run a total h c k = "Delete") ∧
    (∀ nm, name = some nm → nm ≠ "" → a = true →
      deleteButtonLabel name run a total h c k =
        "Delete " ++ (match total with | none => "all" | some t => toString t)
          ++ " runs of \"" ++ nm ++ "\"") ∧
    (∀ nm, name = some nm → nm ≠ "" → a = false → h = true → c = true →
      deleteButtonLabel name run a total h c k =
        "Delete " ++ (if k = 0 then "all" else toString k)
          ++ " runs in restart chain of \"" ++ runLabelOf nm run ++ "\"") ∧
    (∀ nm r, name = some nm → nm ≠ "" → a = false → (h && c) = false →
      run = some r → r ≠ "" →
      deleteButtonLabel name run a total h c k =
        "Delete workflow \"" ++ nm ++ "#" ++ r ++ "\"") ∧
    (∀ nm, name = some nm → nm ≠ "" → a = false → (h && c) = false →
      (run = none ∨ run = some "") →
      deleteButtonLabel name run a total h c k =
        "Delete workflow \"" ++ nm ++ "\"") := by
  refine ⟨?_, ?_, ?_, ?_, ?_⟩
  · rintro (hn | hn) <;> subst hn <;> rfl
  · intro nm hn hne ha
    subst hn; subst ha
    simp [deleteButtonLabel, hne]
  · intro nm hn hne ha hh hc
    subst hn; subst ha; subst hh; subst hc
    simp [deleteButtonLabel, hne]
  · intro nm r hn hne ha hhc hr hrne
    subst hn; subst ha; subst hr
    simp [deleteButtonLabel, hne, hhc, hrne]
  · intro nm hn hne ha hhc hr
    subst hn; subst ha
    rcases hr with hr | hr <;> subst hr <;> simp [deleteButtonLabel, hne, hhc]

/-- Witness for C7: the spec's Scenario B label — run `"7.1"`, 3 related runs
confirmed — reads `Delete 3 runs in restart chain of "x#7"`. -/
theorem C7_delete_button_label_witness :
    deleteButtonLabel (some "x") (some "7.1") false (some 3) true true 3 =
      "Delete 3 runs in restart chain of \"x#7\"" :=
  ((C7_delete_button_label (some "x") (some "7.1") false true true (some 3) 3).2.2.1
    "x" rfl (by decide) rfl rfl rfl).trans (by decide)
